import Mathlib

/-!
Verification of the connectivity core of `netbox/dcim/views.py`.

The Python source is shallowly embedded: each view's algorithmic content is
translated to a pure Lean function over explicit state, Python exceptions
become `Except`, Django querysets become lists, and the two regular
expressions used by the code (`EXPANSION_PATTERN` and the device-name
heuristics) are compiled by hand into character-list scanners, with the
regex semantics additionally stated as existential propositions and proved
equivalent to the scanners.
-/

namespace Netbox

/-! ## Pattern expander (`expand_pattern`, views.py lines 37-60)

`EXPANSION_PATTERN = '\[(\d+-\d+)\]'` and

```python
def expand_pattern(string):
    lead, pattern, remnant = re.split(EXPANSION_PATTERN, string, maxsplit=1)
    x, y = pattern.split('-')
    for i in range(int(x), int(y) + 1):
        if remnant:
            for string in expand_pattern(remnant):
                yield "{0}{1}{2}".format(lead, i, string)
        else:
            yield "{0}{1}".format(lead, i)
```

`re.split` with one capture group and `maxsplit=1` returns `[string]` when
the pattern does not occur (so the 3-way unpacking raises `ValueError`),
and `[lead, group1, remnant]` split at the leftmost match otherwise.  For
the pattern `\[(\d+-\d+)\]` the leftmost match is found by scanning
positions left to right; at a position the pattern matches exactly when the
text reads `'['`, a nonempty digit run, `'-'`, a nonempty digit run, `']'`
(no backtracking is possible because `\d` matches neither `'-'` nor `']'`).
-/

/-- Splits a maximal leading ASCII-digit run off a character list
(the action of a greedy `\d+` at the current position). -/
def takeDigits : List Char → List Char × List Char
  | [] => ([], [])
  | c :: cs =>
    if c.isDigit then
      let p := takeDigits cs
      (c :: p.1, p.2)
    else ([], c :: cs)

/-- Match of `\[(\d+-\d+)\]` anchored at the head of the list: returns
(first digit run, second digit run, text after the closing bracket). -/
def matchBracket (s : List Char) : Option (List Char × List Char × List Char) :=
  match s with
  | [] => none
  | c :: rest =>
    if c = '[' then
      let p := takeDigits rest
      if p.1.isEmpty then none
      else
        match p.2 with
        | d :: r2 =>
          if d = '-' then
            let q := takeDigits r2
            if q.1.isEmpty then none
            else
              match q.2 with
              | e :: r4 => if e = ']' then some (p.1, q.1, r4) else none
              | [] => none
          else none
        | [] => none
    else none

/-- Leftmost match of `EXPANSION_PATTERN`, as used by
`re.split(EXPANSION_PATTERN, string, maxsplit=1)`: returns
(lead, first digit run, second digit run, remnant), or `none` when the
pattern does not occur in the string. -/
def findExpansion : List Char → Option (List Char × List Char × List Char × List Char)
  | [] => none
  | c :: cs =>
    match matchBracket (c :: cs) with
    | some (x, y, rest) => some ([], x, y, rest)
    | none =>
      match findExpansion cs with
      | some (lead, x, y, rest) => some (c :: lead, x, y, rest)
      | none => none

/-- Python `int` on a (nonempty, all-digit) string. -/
def digitsToNat (ds : List Char) : Nat :=
  ds.foldl (fun a c => 10 * a + (c.toNat - 48)) 0

/-- Python `range(lo, hi + 1)` as a list. -/
def rangeList (lo hi : Nat) : List Nat :=
  (List.range (hi + 1 - lo)).map (lo + ·)

/-- Eager materialization of the `expand_pattern` generator.  The `fuel`
argument only bounds the recursion depth (each recursive call is on the
strictly shorter `remnant`, see `findExpansion_length_lt`); Python's
`ValueError` (raised by the 3-way unpacking when the pattern is absent) is
`.error ()`.  Note the faithful quirks: an empty `range` yields nothing and
in particular never runs the recursive call, and a nonempty remnant is
recursively expanded even when it contains no further bracket (in which
case the recursion raises). -/
def expandAux : Nat → List Char → Except Unit (List String)
  | 0, _ => .error ()
  | fuel + 1, s =>
    match findExpansion s with
    | none => .error ()
    | some (lead, x, y, rem) =>
      if digitsToNat y < digitsToNat x then .ok []
      else if rem.isEmpty then
        .ok ((rangeList (digitsToNat x) (digitsToNat y)).map fun i =>
          lead.asString ++ Nat.repr i)
      else
        match expandAux fuel rem with
        | .error e => .error e
        | .ok inner =>
          .ok ((rangeList (digitsToNat x) (digitsToNat y)).flatMap fun i =>
            inner.map fun sfx => lead.asString ++ Nat.repr i ++ sfx)

/-- `expand_pattern` (views.py line 47), with the generator fully
materialized: `.ok` is the list of yielded strings, `.error` a raised
exception. -/
def expand_pattern (s : String) : Except Unit (List String) :=
  expandAux (s.data.length + 1) s.data

theorem takeDigits_append (s : List Char) : (takeDigits s).1 ++ (takeDigits s).2 = s := by
  induction s with
  | nil => rfl
  | cons c cs ih =>
    by_cases h : c.isDigit <;> simp [takeDigits, h, ih]

theorem takeDigits_of (d : List Char) (c : Char) (t : List Char)
    (hd : ∀ a ∈ d, a.isDigit = true) (hc : c.isDigit = false) :
    takeDigits (d ++ c :: t) = (d, c :: t) := by
  induction d with
  | nil => simp [takeDigits, hc]
  | cons a d ih =>
    have ha : a.isDigit = true := hd a (by simp)
    have : ∀ a ∈ d, a.isDigit = true := fun x hx => hd x (by simp [hx])
    simp [takeDigits, ha, ih this]

theorem matchBracket_some_eq (s x y r : List Char)
    (h : matchBracket s = some (x, y, r)) :
    s = '[' :: (x ++ '-' :: (y ++ ']' :: r)) := by
  match s with
  | [] => simp [matchBracket] at h
  | c :: rest =>
    by_cases hc : c = '['
    · subst hc
      simp only [matchBracket, if_pos rfl] at h
      by_cases h1 : (takeDigits rest).1.isEmpty
      · simp [h1] at h
      · simp only [h1, if_false, Bool.false_eq_true] at h
        match hp : (takeDigits rest).2 with
        | [] => rw [hp] at h; simp at h
        | d :: r2 =>
          rw [hp] at h
          by_cases hd : d = '-'
          · subst hd
            simp only [if_pos rfl] at h
            by_cases h2 : (takeDigits r2).1.isEmpty
            · simp [h2] at h
            · simp only [h2, if_false, Bool.false_eq_true] at h
              match hq : (takeDigits r2).2 with
              | [] => rw [hq] at h; simp at h
              | e :: r4 =>
                rw [hq] at h
                by_cases he : e = ']'
                · subst he
                  simp at h
                  obtain ⟨hx, hy, hr⟩ := h
                  subst hx; subst hy; subst hr
                  have e1 := takeDigits_append rest
                  have e2 := takeDigits_append r2
                  rw [hp] at e1; rw [hq] at e2
                  rw [← e2] at e1
                  rw [e1]
                · simp [he] at h
          · simp [hd] at h
    · simp [matchBracket, hc] at h

theorem matchBracket_of (x y r : List Char)
    (hx : x ≠ []) (hxd : ∀ a ∈ x, a.isDigit = true)
    (hy : y ≠ []) (hyd : ∀ a ∈ y, a.isDigit = true) :
    matchBracket ('[' :: (x ++ '-' :: (y ++ ']' :: r))) = some (x, y, r) := by
  have hdash : ('-').isDigit = false := by decide
  have hket : (']').isDigit = false := by decide
  have e1 : takeDigits (x ++ '-' :: (y ++ ']' :: r)) = (x, '-' :: (y ++ ']' :: r)) :=
    takeDigits_of x '-' (y ++ ']' :: r) hxd hdash
  have e2 : takeDigits (y ++ ']' :: r) = (y, ']' :: r) :=
    takeDigits_of y ']' r hyd hket
  simp [matchBracket, e1, e2, List.isEmpty_iff, hx, hy]

theorem matchBracket_cons_ne (c : Char) (l : List Char) (hc : c ≠ '[') :
    matchBracket (c :: l) = none := by
  simp [matchBracket, hc]

theorem findExpansion_some_length (s lead x y r : List Char)
    (h : findExpansion s = some (lead, x, y, r)) : r.length < s.length := by
  induction s generalizing lead x y r with
  | nil => simp [findExpansion] at h
  | cons c cs ih =>
    rw [findExpansion] at h
    match hm : matchBracket (c :: cs) with
    | some (x', y', rest') =>
      rw [hm] at h
      simp only [Option.some.injEq, Prod.mk.injEq] at h
      obtain ⟨-, -, -, hr⟩ := h
      have heq := matchBracket_some_eq _ _ _ _ hm
      have hlen : (c :: cs).length = rest'.length + (x'.length + y'.length + 3) := by
        rw [heq]; simp; omega
      rw [← hr]
      omega
    | none =>
      rw [hm] at h
      match hf : findExpansion cs with
      | some (lead', x', y', rest') =>
        rw [hf] at h
        simp only [Option.some.injEq, Prod.mk.injEq] at h
        obtain ⟨-, -, -, hr⟩ := h
        have hlt := ih lead' x' y' rest' hf
        rw [← hr]
        simp only [List.length_cons]
        omega
      | none => rw [hf] at h; exact absurd h (by simp)

theorem findExpansion_of_template (lit x y rest : List Char)
    (hlit : '[' ∉ lit)
    (hx : x ≠ []) (hxd : ∀ a ∈ x, a.isDigit = true)
    (hy : y ≠ []) (hyd : ∀ a ∈ y, a.isDigit = true) :
    findExpansion (lit ++ '[' :: (x ++ '-' :: (y ++ ']' :: rest))) = some (lit, x, y, rest) := by
  induction lit with
  | nil =>
    rw [List.nil_append, findExpansion]
    rw [matchBracket_of x y rest hx hxd hy hyd]
  | cons c cs ih =>
    have hc : c ≠ '[' := by intro hh; exact hlit (by simp [hh])
    have hcs : '[' ∉ cs := fun hh => hlit (by simp [hh])
    rw [List.cons_append, findExpansion]
    rw [show (c :: (cs ++ '[' :: (x ++ '-' :: (y ++ ']' :: rest)))) =
        c :: (cs ++ '[' :: (x ++ '-' :: (y ++ ']' :: rest))) from rfl]
    rw [matchBracket_cons_ne c _ hc, ih hcs]

theorem takeDigits_digits (s : List Char) : ∀ a ∈ (takeDigits s).1, a.isDigit = true := by
  induction s with
  | nil => simp [takeDigits]
  | cons c cs ih =>
    by_cases h : c.isDigit
    · simp only [takeDigits, if_pos h]
      intro a ha
      rcases List.mem_cons.mp ha with rfl | ha
      · exact h
      · exact ih a ha
    · simp [takeDigits, h]

theorem matchBracket_some_spec (s x y r : List Char)
    (h : matchBracket s = some (x, y, r)) :
    s = '[' :: (x ++ '-' :: (y ++ ']' :: r)) ∧
      x ≠ [] ∧ (∀ a ∈ x, a.isDigit = true) ∧ y ≠ [] ∧ (∀ a ∈ y, a.isDigit = true) := by
  refine ⟨matchBracket_some_eq s x y r h, ?_⟩
  match s with
  | [] => simp [matchBracket] at h
  | c :: rest =>
    by_cases hc : c = '['
    · subst hc
      simp only [matchBracket, if_pos rfl] at h
      by_cases h1 : (takeDigits rest).1.isEmpty
      · simp [h1] at h
      · simp only [h1, if_false, Bool.false_eq_true] at h
        match hp : (takeDigits rest).2 with
        | [] => rw [hp] at h; simp at h
        | d :: r2 =>
          rw [hp] at h
          by_cases hd : d = '-'
          · subst hd
            simp only [if_pos rfl] at h
            by_cases h2 : (takeDigits r2).1.isEmpty
            · simp [h2] at h
            · simp only [h2, if_false, Bool.false_eq_true] at h
              match hq : (takeDigits r2).2 with
              | [] => rw [hq] at h; simp at h
              | e :: r4 =>
                rw [hq] at h
                by_cases he : e = ']'
                · subst he
                  simp at h
                  obtain ⟨hx, hy, _⟩ := h
                  subst hx; subst hy
                  refine ⟨?_, takeDigits_digits rest, ?_, takeDigits_digits r2⟩
                  · simpa [List.isEmpty_iff] using h1
                  · simpa [List.isEmpty_iff] using h2
                · simp [he] at h
          · simp [hd] at h
    · simp [matchBracket, hc] at h

/-- The string contains a bracketed numeric range, i.e. the regular
expression `\[(\d+-\d+)\]` has a match (statement of the spec's "bracket
expression", as a structural decomposition). -/
def hasRange (s : List Char) : Prop :=
  ∃ lead x y rest, s = lead ++ '[' :: (x ++ '-' :: (y ++ ']' :: rest)) ∧
    x ≠ [] ∧ (∀ a ∈ x, a.isDigit = true) ∧ y ≠ [] ∧ (∀ a ∈ y, a.isDigit = true)

theorem findExpansion_isSome_of (lead x y rest : List Char)
    (hx : x ≠ []) (hxd : ∀ a ∈ x, a.isDigit = true)
    (hy : y ≠ []) (hyd : ∀ a ∈ y, a.isDigit = true) :
    (findExpansion (lead ++ '[' :: (x ++ '-' :: (y ++ ']' :: rest)))).isSome = true := by
  induction lead with
  | nil =>
    rw [List.nil_append, findExpansion, matchBracket_of x y rest hx hxd hy hyd]
    rfl
  | cons c cs ih =>
    rw [List.cons_append, findExpansion]
    match hm : matchBracket (c :: (cs ++ '[' :: (x ++ '-' :: (y ++ ']' :: rest)))) with
    | some t => rfl
    | none =>
      match hf : findExpansion (cs ++ '[' :: (x ++ '-' :: (y ++ ']' :: rest))) with
      | some t => rfl
      | none => rw [hf] at ih; exact absurd ih (by simp)

theorem hasRange_iff (s : List Char) :
    hasRange s ↔ (findExpansion s).isSome = true := by
  constructor
  · rintro ⟨lead, x, y, rest, rfl, hx, hxd, hy, hyd⟩
    exact findExpansion_isSome_of lead x y rest hx hxd hy hyd
  · intro h
    match hf : findExpansion s with
    | none => rw [hf] at h; simp at h
    | some (lead, x, y, rest) =>
      clear h
      induction s generalizing lead x y rest with
      | nil => simp [findExpansion] at hf
      | cons c cs ih =>
        rw [findExpansion] at hf
        match hm : matchBracket (c :: cs) with
        | some (x', y', r') =>
          rw [hm] at hf
          obtain ⟨heq, hx, hxd, hy, hyd⟩ := matchBracket_some_spec _ _ _ _ hm
          exact ⟨[], x', y', r', heq, hx, hxd, hy, hyd⟩
        | none =>
          rw [hm] at hf
          match hrec : findExpansion cs with
          | none => rw [hrec] at hf; exact absurd hf (by simp)
          | some (lead', x', y', r') =>
            rw [hrec] at hf
            obtain ⟨l2, x2, y2, r2, heq, p⟩ := ih lead' x' y' r' hrec
            exact ⟨c :: l2, x2, y2, r2, by rw [heq]; rfl, p⟩

/-- Error propagation: when the pattern does not occur, iterating the
generator raises `ValueError` (the 3-way unpack of a 1-element list). -/
theorem expandAux_no_match (fuel : Nat) (s : List Char)
    (h : findExpansion s = none) : expandAux fuel s = .error () := by
  match fuel with
  | 0 => rfl
  | fuel + 1 => rw [expandAux, h]

/-! ### Valid templates

A template made of segments `lit ++ "[" ++ x ++ "-" ++ y ++ "]"` whose
literal parts contain no `'['` and whose bounds are nonempty digit runs.
`specExpand` is the SPEC side of claim C1: nested ascending loops, the
outermost range varying slowest, each substituted integer rendered in
decimal by `Nat.repr`. -/

/-- Concatenates template segments (literal, low bound digits, high bound
digits); the template ends immediately after the last closing bracket. -/
def mkTemplate : List (List Char × List Char × List Char) → List Char
  | [] => []
  | (lit, x, y) :: rest => lit ++ '[' :: (x ++ '-' :: (y ++ ']' :: mkTemplate rest))

/-- A well-formed segment with `low ≤ high` (the premise of claim C1). -/
def validSeg (t : List Char × List Char × List Char) : Prop :=
  '[' ∉ t.1 ∧ t.2.1 ≠ [] ∧ (∀ a ∈ t.2.1, a.isDigit = true) ∧
    t.2.2 ≠ [] ∧ (∀ a ∈ t.2.2, a.isDigit = true) ∧
    digitsToNat t.2.1 ≤ digitsToNat t.2.2

/-- Expected expansion, written from the spec's words: for each integer of
the first range in ascending order, prepend `lit` and the decimal rendering
of the integer to every expansion of the remaining segments. -/
def specExpand : List (List Char × List Char × List Char) → List String
  | [] => [""]
  | (lit, x, y) :: rest =>
    (rangeList (digitsToNat x) (digitsToNat y)).flatMap fun i =>
      (specExpand rest).map fun sfx => lit.asString ++ Nat.repr i ++ sfx

theorem mkTemplate_ne_nil (segs : List (List Char × List Char × List Char))
    (h : segs ≠ []) : mkTemplate segs ≠ [] := by
  match segs with
  | [] => exact absurd rfl h
  | (lit, x, y) :: rest =>
    rw [mkTemplate]
    intro hc
    have : '[' ∈ ([] : List Char) := by
      rw [← hc]; simp
    simp at this

theorem flatMap_single {α β : Type} (l : List α) (f : α → β) :
    (l.flatMap fun a => [f a]) = l.map f := by
  induction l <;> simp_all

theorem expandAux_template (segs : List (List Char × List Char × List Char))
    (fuel : Nat) (hne : segs ≠ []) (hv : ∀ t ∈ segs, validSeg t)
    (hf : (mkTemplate segs).length < fuel) :
    expandAux fuel (mkTemplate segs) = .ok (specExpand segs) := by
  induction segs generalizing fuel with
  | nil => exact absurd rfl hne
  | cons t ts ih =>
    obtain ⟨lit, x, y⟩ := t
    obtain ⟨hlit, hx, hxd, hy, hyd, hlh⟩ := hv (lit, x, y) (by simp)
    dsimp only at hlit hx hxd hy hyd hlh
    match fuel with
    | 0 => exact absurd hf (by omega)
    | fuel + 1 =>
      rw [mkTemplate, expandAux,
        findExpansion_of_template lit x y (mkTemplate ts) hlit hx hxd hy hyd]
      simp only
      rw [if_neg (by omega)]
      cases ts with
      | nil =>
        rw [mkTemplate]
        simp only [List.isEmpty_nil, if_pos]
        rw [specExpand, specExpand]
        simp [flatMap_single, String.append_empty]
      | cons t2 ts2 =>
        have hne2 : mkTemplate (t2 :: ts2) ≠ [] := mkTemplate_ne_nil _ (by simp)
        rw [if_neg (by simpa [List.isEmpty_iff] using hne2)]
        have hlen : (mkTemplate ((lit, x, y) :: (t2 :: ts2))).length =
            lit.length + x.length + y.length + 3 + (mkTemplate (t2 :: ts2)).length := by
          rw [mkTemplate]; simp; omega
        rw [ih fuel (by simp) (fun u hu => hv u (List.mem_cons_of_mem _ hu)) (by omega)]
        rfl

theorem length_flatMap_const {A B : Type} (l : List A) (f : A → List B) (n : Nat)
    (h : ∀ a ∈ l, (f a).length = n) : (l.flatMap f).length = l.length * n := by
  induction l with
  | nil => simp
  | cons a l ih =>
    have := h a (by simp)
    have := ih (fun b hb => h b (by simp [hb]))
    simp only [List.flatMap_cons, List.length_append, List.length_cons]
    rw [Nat.succ_mul]
    omega

theorem rangeList_length (lo hi : Nat) : (rangeList lo hi).length = hi + 1 - lo := by
  simp [rangeList]

theorem specExpand_length (segs : List (List Char × List Char × List Char)) :
    (specExpand segs).length =
      (segs.map fun t => digitsToNat t.2.2 + 1 - digitsToNat t.2.1).prod := by
  induction segs with
  | nil => simp [specExpand]
  | cons t rest ih =>
    obtain ⟨lit, x, y⟩ := t
    rw [specExpand, length_flatMap_const _ _ (specExpand rest).length (by intro a _; simp),
      rangeList_length, ih, List.map_cons, List.prod_cons]

instance validSeg_decidable (t : List Char × List Char × List Char) :
    Decidable (validSeg t) := by
  unfold validSeg
  exact inferInstance

/-- C1: for every valid template built from segments (bracket-free literal,
low digits, high digits) with low ≤ high, `expand_pattern` succeeds and
returns exactly the spec-side nested expansion `specExpand` — high+1-low
results per range position multiplied across ranges, outer-major ascending,
integers rendered in decimal — and in particular `"xe-0/[0-1]/[0-2]"`
yields exactly the six listed strings in that order. -/
theorem C1_expand_pattern_counts_and_order
    (segs : List (List Char × List Char × List Char))
    (hne : segs ≠ []) (hv : ∀ t ∈ segs, validSeg t) :
    expand_pattern (mkTemplate segs).asString = .ok (specExpand segs) ∧
    (specExpand segs).length =
      (segs.map fun t => digitsToNat t.2.2 + 1 - digitsToNat t.2.1).prod ∧
    expand_pattern "xe-0/[0-1]/[0-2]" =
      .ok ["xe-0/0/0", "xe-0/0/1", "xe-0/0/2", "xe-0/1/0", "xe-0/1/1", "xe-0/1/2"] := by
  refine ⟨?_, specExpand_length segs, rfl⟩
  exact expandAux_template segs ((mkTemplate segs).length + 1) hne hv (Nat.lt_succ_self _)

/-- Witness for C1 at the template `"xe-0/[0-1]/[0-2]"` of the claim. -/
theorem C1_expand_pattern_counts_and_order_witness :
    expand_pattern
        (mkTemplate [("xe-0/".data, ['0'], ['1']), ("/".data, ['0'], ['2'])]).asString =
      .ok (specExpand [("xe-0/".data, ['0'], ['1']), ("/".data, ['0'], ['2'])]) ∧
    (specExpand [("xe-0/".data, ['0'], ['1']), ("/".data, ['0'], ['2'])]).length = 6 := by
  have h := C1_expand_pattern_counts_and_order
    [("xe-0/".data, ['0'], ['1']), ("/".data, ['0'], ['2'])]
    (by simp) (by decide)
  exact ⟨h.1, by rw [h.2.1]; decide⟩

/-- C5 counterexample: the claim says a template with no bracket expression
expands to the one-element sequence containing it unchanged; on `"router"`
the code instead raises `ValueError` (the 3-way unpack of `re.split`'s
1-element result). -/
theorem C5_counterexample :
    expand_pattern "router" = .error () ∧ expand_pattern "router" ≠ .ok ["router"] :=
  ⟨rfl, fun h => Except.noConfusion h⟩

/-- C5 amended: for every template string containing no bracket expression,
the Pattern Expander raises an error when its result is materialized
(never the single-element sequence containing the template). -/
theorem C5_amended_no_bracket_raises (s : String) (h : ¬ hasRange s.data) :
    expand_pattern s = .error () := by
  match hf : findExpansion s.data with
  | none => exact expandAux_no_match _ _ hf
  | some t => exact absurd ((hasRange_iff s.data).mpr (by rw [hf]; rfl)) h

/-- Witness for C5 at the bracket-free template `"router"`. -/
theorem C5_amended_no_bracket_raises_witness : expand_pattern "router" = .error () :=
  C5_amended_no_bracket_raises "router"
    (fun h => absurd ((hasRange_iff _).mp h) (by decide))

/-- C7 counterexample: the claim says a range with low > high is rejected
with a format error; on `"xe-[3-1]"` the code instead succeeds and yields
the empty sequence (`range(3, 2)` is empty, so the generator yields
nothing and raises nothing). -/
theorem C7_counterexample :
    expand_pattern "xe-[3-1]" = .ok [] ∧ expand_pattern "xe-[3-1]" ≠ .error () :=
  ⟨rfl, fun h => Except.noConfusion h⟩

/-- C7 amended: a template in which no well-formed `[digits-digits]` range
occurs (e.g. non-numeric bounds) makes the expander raise an error when
materialized, but a well-formed first range with low > high is NOT
rejected: expansion succeeds with the empty sequence. -/
theorem C7_amended_malformed_brackets :
    (∀ s : String, ¬ hasRange s.data → expand_pattern s = .error ()) ∧
    (∀ lit x y rest : List Char, '[' ∉ lit →
      x ≠ [] → (∀ a ∈ x, a.isDigit = true) → y ≠ [] → (∀ a ∈ y, a.isDigit = true) →
      digitsToNat y < digitsToNat x →
      expand_pattern (lit ++ '[' :: (x ++ '-' :: (y ++ ']' :: rest))).asString = .ok []) := by
  constructor
  · intro s h
    match hf : findExpansion s.data with
    | none => exact expandAux_no_match _ _ hf
    | some t => exact absurd ((hasRange_iff s.data).mpr (by rw [hf]; rfl)) h
  · intro lit x y rest hlit hx hxd hy hyd hlh
    have hd : (lit ++ '[' :: (x ++ '-' :: (y ++ ']' :: rest))).asString.data
        = lit ++ '[' :: (x ++ '-' :: (y ++ ']' :: rest)) := rfl
    show expandAux _ _ = _
    rw [hd, expandAux, findExpansion_of_template lit x y rest hlit hx hxd hy hyd]
    simp only
    rw [if_pos hlh]

/-- Witness for C7: non-numeric bounds `"q[a-b]"` raise, and the
low > high template `"xe-[3-1]"` succeeds with the empty expansion. -/
theorem C7_amended_malformed_brackets_witness :
    expand_pattern "q[a-b]" = .error () ∧
    expand_pattern (("xe-".data) ++ '[' :: (['3'] ++ '-' :: (['1'] ++ ']' :: []))).asString
      = .ok [] :=
  ⟨C7_amended_malformed_brackets.1 "q[a-b]"
      (fun h => absurd ((hasRange_iff _).mp h) (by decide)),
    C7_amended_malformed_brackets.2 "xe-".data ['3'] ['1'] [] (by decide) (by decide)
      (by decide) (by decide) (by decide) (by decide)⟩


/-! ## Port Registry batches (`consoleport_add`, `interface_add`,
`InterfaceBulkAddView.update_objects`)

The per-name validation lives in `ConsolePortForm` / `InterfaceForm`
(ModelForm uniqueness over (device, name)), whose module is not among the
sources; it is modelled from the spec.  The batch orchestration below it is
translated from views.py. -/

/-- Modelled from the spec: the per-name validation of
`ConsolePortForm.is_valid()` / `InterfaceForm.is_valid()` (forms.py /
models.py are not among the sources) — "For every proposed name, check
uniqueness among existing ports of the same kind on the same device."
`existing` is the list of names of the persisted ports of the relevant kind
on the device; objects built with `commit=False` earlier in the same
request are not persisted and therefore not checked against. -/
def port_form_is_valid (existing : List String) (name : String) : Bool :=
  ! existing.contains name

/-- Result of a batch port-creation view: `created` is the list of names
actually persisted by `bulk_create`, `errors` the names reported as
duplicates (request order, one entry per offending occurrence). -/
structure AddResult where
  created : List String
  errors : List String
deriving DecidableEq, Repr

/-- `consoleport_add` POST handler (views.py lines 584-605): every name of
the expanded pattern is validated with a fresh form; valid ones are
accumulated unsaved, each invalid one adds a "Duplicate console port name
for this device" error; `bulk_create` persists the accumulated list only
when no error was recorded. -/
def consoleport_add (existing : List String) (name_pattern : List String) : AddResult :=
  let r := name_pattern.foldl
    (fun acc name =>
      if port_form_is_valid existing name then (acc.1 ++ [name], acc.2)
      else (acc.1, acc.2 ++ [name]))
    ([], [])
  if r.2.isEmpty then { created := r.1, errors := [] } else { created := [], errors := r.2 }

/-- `interface_add` POST handler (views.py lines 1177-1201): identical
batch logic over interface names (the shared attributes `form_factor`,
`mgmt_only`, `description` play no part in name validation and are not
modelled). -/
def interface_add (existing : List String) (name_pattern : List String) : AddResult :=
  let r := name_pattern.foldl
    (fun acc name =>
      if port_form_is_valid existing name then (acc.1 ++ [name], acc.2)
      else (acc.1, acc.2 ++ [name]))
    ([], [])
  if r.2.isEmpty then { created := r.1, errors := [] } else { created := [], errors := r.2 }

theorem add_foldl (existing : List String) (l : List String) (c e : List String) :
    l.foldl
      (fun acc name =>
        if port_form_is_valid existing name then (acc.1 ++ [name], acc.2)
        else (acc.1, acc.2 ++ [name]))
      (c, e) =
    (c ++ l.filter (fun n => port_form_is_valid existing n),
      e ++ l.filter (fun n => ! port_form_is_valid existing n)) := by
  induction l generalizing c e with
  | nil => simp
  | cons a l ih =>
    by_cases h : port_form_is_valid existing a = true
    · simp [List.foldl_cons, h, ih, List.filter_cons]
    · simp only [Bool.not_eq_true] at h
      simp [List.foldl_cons, h, ih, List.filter_cons]

theorem batch_add_spec (existing name_pattern : List String) :
    consoleport_add existing name_pattern =
      (if (name_pattern.filter fun n => existing.contains n) = [] then
        { created := name_pattern, errors := [] }
      else
        { created := [], errors := name_pattern.filter fun n => existing.contains n }) := by
  unfold consoleport_add
  rw [add_foldl]
  have hpos : (name_pattern.filter fun n => ! port_form_is_valid existing n) =
      (name_pattern.filter fun n => existing.contains n) := by
    simp [port_form_is_valid]
  rw [hpos]
  by_cases h : (name_pattern.filter fun n => existing.contains n) = []
  · rw [if_pos h, if_pos (show (([] : List String) ++
        (name_pattern.filter fun n => existing.contains n)).isEmpty = true by
      rw [List.nil_append, h]; rfl)]
    have hall : (name_pattern.filter fun n => port_form_is_valid existing n) = name_pattern := by
      rw [List.filter_eq_self]
      intro a ha
      have hni := (List.filter_eq_nil_iff.mp h) a ha
      simp only [Bool.not_eq_true] at hni
      simp only [port_form_is_valid, Bool.not_eq_true']
      exact hni
    simp [hall]
  · rw [if_neg h, if_neg (show ¬ (([] : List String) ++
        (name_pattern.filter fun n => existing.contains n)).isEmpty = true by
      rw [List.nil_append]
      intro hc
      exact h (by simpa [List.isEmpty_iff] using hc))]
    simp

theorem batch_add_claims (existing name_pattern : List String) :
    (consoleport_add existing name_pattern).errors
        = name_pattern.filter (fun n => existing.contains n) ∧
      (name_pattern.filter (fun n => existing.contains n) ≠ [] →
        (consoleport_add existing name_pattern).created = []) ∧
      (name_pattern.filter (fun n => existing.contains n) = [] →
        (consoleport_add existing name_pattern).created = name_pattern) := by
  rw [batch_add_spec]
  by_cases h : (name_pattern.filter fun n => existing.contains n) = []
  · rw [if_pos h]
    exact ⟨h.symm, fun hc => absurd h hc, fun _ => rfl⟩
  · rw [if_neg h]
    exact ⟨rfl, fun _ => rfl, fun hc => absurd hc h⟩

/-- C2 counterexample: with no existing ports, the batch
`["eth1", "eth1"]` collides in-batch; the claim requires that nothing be
persisted and the duplicate be reported, but the code persists BOTH copies
and reports no error (each form validates against persisted ports only,
and the earlier sibling was built with `commit=False`). -/
theorem C2_counterexample :
    consoleport_add [] ["eth1", "eth1"] = { created := ["eth1", "eth1"], errors := [] } ∧
    ¬ ((consoleport_add [] ["eth1", "eth1"]).created = [] ∧
        (consoleport_add [] ["eth1", "eth1"]).errors ≠ []) := by
  refine ⟨rfl, ?_⟩
  intro hc
  exact absurd (by rw [show consoleport_add [] ["eth1", "eth1"]
    = { created := ["eth1", "eth1"], errors := [] } from rfl]) hc.2

/-- C2 (amended): for every single-device batch port creation, if any
proposed name collides with an EXISTING port of the same kind on that
device, then no port of the batch is persisted and every offending name is
reported individually, in request order; if no proposed name collides with
an existing port, the whole batch is persisted.  In particular, with an
existing port "eth0", the batch ["eth0", "eth1"] creates neither port and
reports exactly one duplicate, for "eth0".  (Collisions between two
proposed names of the same batch are NOT detected by this layer; both
copies are passed to the bulk insert — see the counterexample.) -/
theorem C2_amended_single_device_all_or_nothing (existing name_pattern : List String) :
    ((consoleport_add existing name_pattern).errors
        = name_pattern.filter (fun n => existing.contains n) ∧
      (name_pattern.filter (fun n => existing.contains n) ≠ [] →
        (consoleport_add existing name_pattern).created = []) ∧
      (name_pattern.filter (fun n => existing.contains n) = [] →
        (consoleport_add existing name_pattern).created = name_pattern)) ∧
    ((interface_add existing name_pattern).errors
        = name_pattern.filter (fun n => existing.contains n) ∧
      (name_pattern.filter (fun n => existing.contains n) ≠ [] →
        (interface_add existing name_pattern).created = []) ∧
      (name_pattern.filter (fun n => existing.contains n) = [] →
        (interface_add existing name_pattern).created = name_pattern)) ∧
    consoleport_add ["eth0"] ["eth0", "eth1"] = { created := [], errors := ["eth0"] } := by
  exact ⟨batch_add_claims existing name_pattern, batch_add_claims existing name_pattern, rfl⟩

/-- Witness for C2 at the claim's own example (existing "eth0", batch
["eth0", "eth1"]). -/
theorem C2_amended_single_device_all_or_nothing_witness :
    (consoleport_add ["eth0"] ["eth0", "eth1"]).created = [] ∧
    (interface_add ["eth0"] ["eth0", "eth1"]).created = [] := by
  have h := C2_amended_single_device_all_or_nothing ["eth0"] ["eth0", "eth1"]
  exact ⟨h.1.2.1 (by decide), h.2.1.2.1 (by decide)⟩

/-- Result of the multi-device bulk view, pairs are (device pk, name). -/
structure BulkAddResult where
  created : List (Nat × String)
  errors : List (Nat × String)
deriving DecidableEq, Repr

/-- `InterfaceBulkAddView.update_objects` (views.py lines 1264-1286): for
every selected device (given as pk with the names of its persisted
interfaces) and every name of the expanded pattern, a fresh `InterfaceForm`
is validated (spec-modelled `port_form_is_valid`); valid (device, name)
pairs are accumulated unsaved, each invalid one adds a "Duplicate
interface" error; a single `bulk_create` persists the accumulated list
only when no error was recorded across ALL devices. -/
def update_objects (selected_devices : List (Nat × List String))
    (name_pattern : List String) : BulkAddResult :=
  let r := selected_devices.foldl
    (fun acc dev =>
      name_pattern.foldl
        (fun acc2 name =>
          if port_form_is_valid dev.2 name then (acc2.1 ++ [(dev.1, name)], acc2.2)
          else (acc2.1, acc2.2 ++ [(dev.1, name)]))
        acc)
    ([], [])
  if r.2.isEmpty then { created := r.1, errors := [] } else { created := [], errors := r.2 }

/-- The (device, name) pairs that collide with an existing interface. -/
def failingPairs (devices : List (Nat × List String)) (names : List String) :
    List (Nat × String) :=
  devices.flatMap fun d => (names.filter fun n => d.2.contains n).map fun n => (d.1, n)

/-- The (device, name) pairs that validate. -/
def okPairs (devices : List (Nat × List String)) (names : List String) :
    List (Nat × String) :=
  devices.flatMap fun d =>
    (names.filter fun n => port_form_is_valid d.2 n).map fun n => (d.1, n)

/-- Every (device, name) pair of the request. -/
def allPairs (devices : List (Nat × List String)) (names : List String) :
    List (Nat × String) :=
  devices.flatMap fun d => names.map fun n => (d.1, n)

theorem bulk_inner_foldl (d : Nat × List String) (names : List String)
    (c e : List (Nat × String)) :
    names.foldl
      (fun acc2 name =>
        if port_form_is_valid d.2 name then (acc2.1 ++ [(d.1, name)], acc2.2)
        else (acc2.1, acc2.2 ++ [(d.1, name)]))
      (c, e) =
    (c ++ (names.filter fun n => port_form_is_valid d.2 n).map fun n => (d.1, n),
      e ++ (names.filter fun n => ! port_form_is_valid d.2 n).map fun n => (d.1, n)) := by
  induction names generalizing c e with
  | nil => simp
  | cons a l ih =>
    by_cases h : port_form_is_valid d.2 a = true
    · simp [List.foldl_cons, h, ih, List.filter_cons]
    · simp only [Bool.not_eq_true] at h
      simp [List.foldl_cons, h, ih, List.filter_cons]

theorem bulk_outer_foldl (devices : List (Nat × List String)) (names : List String)
    (c e : List (Nat × String)) :
    devices.foldl
      (fun acc dev =>
        names.foldl
          (fun acc2 name =>
            if port_form_is_valid dev.2 name then (acc2.1 ++ [(dev.1, name)], acc2.2)
            else (acc2.1, acc2.2 ++ [(dev.1, name)]))
          acc)
      (c, e) =
    (c ++ okPairs devices names, e ++ failingPairs devices names) := by
  induction devices generalizing c e with
  | nil => simp [okPairs, failingPairs]
  | cons d ds ih =>
    rw [List.foldl_cons, bulk_inner_foldl, ih]
    have hfp : (names.filter fun n => ! port_form_is_valid d.2 n)
        = names.filter fun n => d.2.contains n := by
      simp [port_form_is_valid]
    rw [hfp]
    simp [okPairs, failingPairs, List.flatMap_cons, List.append_assoc]

theorem update_objects_spec (devices : List (Nat × List String)) (names : List String) :
    update_objects devices names =
      (if failingPairs devices names = [] then
        { created := allPairs devices names, errors := [] }
      else
        { created := [], errors := failingPairs devices names }) := by
  unfold update_objects
  rw [bulk_outer_foldl]
  by_cases h : failingPairs devices names = []
  · rw [if_pos h, if_pos (show (([] : List (Nat × String)) ++
        failingPairs devices names).isEmpty = true by rw [List.nil_append, h]; rfl)]
    have hall : okPairs devices names = allPairs devices names := by
      unfold failingPairs at h
      unfold okPairs allPairs
      induction devices with
      | nil => rfl
      | cons d ds ih =>
        rw [List.flatMap_cons] at h
        rw [List.flatMap_cons, List.flatMap_cons]
        obtain ⟨h1, h2⟩ := List.append_eq_nil.mp h
        rw [ih h2]
        have hfilt : (names.filter fun n => port_form_is_valid d.2 n) = names := by
          rw [List.filter_eq_self]
          intro a ha
          have hna := (List.filter_eq_nil_iff.mp (List.map_eq_nil_iff.mp h1)) a ha
          simp only [Bool.not_eq_true] at hna
          simp only [port_form_is_valid, Bool.not_eq_true']
          exact hna
        rw [hfilt]
    simp [hall]
  · rw [if_neg h, if_neg (show ¬ (([] : List (Nat × String)) ++
        failingPairs devices names).isEmpty = true by
      rw [List.nil_append]
      intro hc
      exact h (by simpa [List.isEmpty_iff] using hc))]
    simp

/-- C3: in the multi-device bulk interface creation, every
(device, expanded-name) pair across all selected devices is validated
before anything is committed: the errors are exactly the colliding pairs
(one per failing pair, in request order); if ANY pair collides nothing is
created on ANY device, and if no pair collides every (device, name) pair
is created. -/
theorem C3_bulk_interface_all_or_nothing (devices : List (Nat × List String))
    (names : List String) :
    (update_objects devices names).errors = failingPairs devices names ∧
    (failingPairs devices names ≠ [] → (update_objects devices names).created = []) ∧
    (failingPairs devices names = [] →
      (update_objects devices names).created = allPairs devices names) := by
  rw [update_objects_spec]
  by_cases h : failingPairs devices names = []
  · rw [if_pos h]
    exact ⟨h.symm, fun hc => absurd h hc, fun _ => rfl⟩
  · rw [if_neg h]
    exact ⟨rfl, fun _ => rfl, fun hc => absurd hc h⟩

/-- Witness for C3: device 1 already has "eth0", device 2 has nothing; the
batch ["eth0", "eth1"] creates nothing on either device; and with no
collisions anywhere the full fan-out is created. -/
theorem C3_bulk_interface_all_or_nothing_witness :
    (update_objects [(1, ["eth0"]), (2, [])] ["eth0", "eth1"]).created = [] ∧
    (update_objects [(1, []), (2, [])] ["eth0"]).created =
      allPairs [(1, []), (2, [])] ["eth0"] := by
  constructor
  · exact (C3_bulk_interface_all_or_nothing [(1, ["eth0"]), (2, [])] ["eth0", "eth1"]).2.1
      (by decide)
  · exact (C3_bulk_interface_all_or_nothing [(1, []), (2, [])] ["eth0"]).2.2 (by decide)

/-! ## Connection Manager (console / power point-to-point views)

The object store is a record of assoc lists keyed by primary key.  A
`ConsolePort` holds the connection state (`cs_port` reference plus
`connection_status`, a Django NullBooleanField: `none` = not connected,
`some false` = planned, `some true` = connected); `ConsoleServerPort` holds
no connection field — its `connected_console` back-view is computed by the
reverse lookup.  Power ports / outlets mirror this exactly. -/

structure ConsolePort where
  device : Nat
  name : String
  cs_port : Option Nat
  connection_status : Option Bool
deriving DecidableEq, Repr

structure ConsoleServerPort where
  device : Nat
  name : String
deriving DecidableEq, Repr

structure PowerPort where
  device : Nat
  name : String
  power_outlet : Option Nat
  connection_status : Option Bool
deriving DecidableEq, Repr

structure PowerOutlet where
  device : Nat
  name : String
deriving DecidableEq, Repr

structure Store where
  console_ports : List (Nat × ConsolePort)
  console_server_ports : List (Nat × ConsoleServerPort)
  power_ports : List (Nat × PowerPort)
  power_outlets : List (Nat × PowerOutlet)
deriving DecidableEq, Repr

/-- `get_object_or_404(ConsolePort, pk=pk)`. -/
def getConsolePort (s : Store) (pk : Nat) : Option ConsolePort :=
  (s.console_ports.find? fun kv => kv.1 == pk).map fun kv => kv.2

def getConsoleServerPort (s : Store) (pk : Nat) : Option ConsoleServerPort :=
  (s.console_server_ports.find? fun kv => kv.1 == pk).map fun kv => kv.2

def getPowerPort (s : Store) (pk : Nat) : Option PowerPort :=
  (s.power_ports.find? fun kv => kv.1 == pk).map fun kv => kv.2

def getPowerOutlet (s : Store) (pk : Nat) : Option PowerOutlet :=
  (s.power_outlets.find? fun kv => kv.1 == pk).map fun kv => kv.2

/-- `consoleport.save()` after mutating the instance with key `pk`. -/
def saveConsolePort (s : Store) (pk : Nat) (p : ConsolePort) : Store :=
  { s with console_ports :=
      s.console_ports.map fun kv => if kv.1 == pk then (kv.1, p) else kv }

def savePowerPort (s : Store) (pk : Nat) (p : PowerPort) : Store :=
  { s with power_ports :=
      s.power_ports.map fun kv => if kv.1 == pk then (kv.1, p) else kv }

/-- Failure modes of the port views: `notFound` is `get_object_or_404`,
`notConnected` the "not connected to anything" warning path (the spec's
`NotConnectedError`). -/
inductive ViewErr where
  | notFound
  | notConnected
deriving DecidableEq, Repr

/-- `consoleport_disconnect` (views.py lines 648-663), confirmed POST: if
`consoleport.cs_port` is unset, warn and mutate nothing; otherwise set
`cs_port = None`, `connection_status = None` and save once. -/
def consoleport_disconnect (s : Store) (pk : Nat) : Except ViewErr Store :=
  match getConsolePort s pk with
  | none => .error .notFound
  | some cp =>
    if cp.cs_port.isNone then .error .notConnected
    else .ok (saveConsolePort s pk
      { cp with cs_port := none, connection_status := none })

/-- `consoleserverport_disconnect` (views.py lines 800-827), confirmed
POST: if no console port references this server port
(`hasattr(csp, 'connected_console')` is false), warn and mutate nothing;
otherwise null the referencing console port's `cs_port` and
`connection_status` and save it.  The server port record itself is never
written. -/
def consoleserverport_disconnect (s : Store) (pk : Nat) : Except ViewErr Store :=
  match getConsoleServerPort s pk with
  | none => .error .notFound
  | some _ =>
    match s.console_ports.find? fun kv => kv.2.cs_port == some pk with
    | none => .error .notConnected
    | some (cpk, cp) => .ok (saveConsolePort s cpk
      { cp with cs_port := none, connection_status := none })

/-- `powerport_disconnect` (views.py lines 945-970), confirmed POST. -/
def powerport_disconnect (s : Store) (pk : Nat) : Except ViewErr Store :=
  match getPowerPort s pk with
  | none => .error .notFound
  | some pp =>
    if pp.power_outlet.isNone then .error .notConnected
    else .ok (savePowerPort s pk
      { pp with power_outlet := none, connection_status := none })

/-- `poweroutlet_disconnect` (views.py lines 1095-1122), confirmed POST. -/
def poweroutlet_disconnect (s : Store) (pk : Nat) : Except ViewErr Store :=
  match getPowerOutlet s pk with
  | none => .error .notFound
  | some _ =>
    match s.power_ports.find? fun kv => kv.2.power_outlet == some pk with
    | none => .error .notConnected
    | some (ppk, pp) => .ok (savePowerPort s ppk
      { pp with power_outlet := none, connection_status := none })

/-- `consoleport_connect` (views.py lines 618-644), valid POST.  The write
of `cs_port` and `connection_status` happens inside
`ConsolePortConnectionForm.save()`, whose module is not among the sources;
it is modelled from the spec — "`connect(port, partner, status)`: sets the
port's partner reference and status field" — with no check of any prior
reference. -/
def consoleport_connect (s : Store) (pk : Nat) (cs_pk : Nat) (status : Bool) :
    Except ViewErr Store :=
  match getConsolePort s pk with
  | none => .error .notFound
  | some cp => .ok (saveConsolePort s pk
      { cp with cs_port := some cs_pk, connection_status := some status })

/-- `consoleserverport_connect` (views.py lines 769-797), valid POST: the
caller originates from the server-port side and chooses a console port
(`form.cleaned_data['port']`); the view writes `cs_port` and
`connection_status` onto that console port and saves it, unconditionally. -/
def consoleserverport_connect (s : Store) (pk : Nat) (port_pk : Nat) (status : Bool) :
    Except ViewErr Store :=
  match getConsoleServerPort s pk with
  | none => .error .notFound
  | some _ =>
    match getConsolePort s port_pk with
    | none => .error .notFound
    | some cp => .ok (saveConsolePort s port_pk
        { cp with cs_port := some pk, connection_status := some status })

theorem find?_unique {A : Type} (l : List A) (p : A → Bool) (a : A)
    (ha : a ∈ l) (hpa : p a = true) (huniq : ∀ b ∈ l, p b = true → b = a) :
    l.find? p = some a := by
  induction l with
  | nil => cases ha
  | cons x xs ih =>
    by_cases hx : p x = true
    · have hxa : x = a := huniq x (by simp) hx
      subst hxa
      exact List.find?_cons_of_pos xs hx
    · rw [List.find?_cons_of_neg xs hx]
      rcases List.mem_cons.mp ha with rfl | ha2
      · exact absurd hpa hx
      · exact ih ha2 (fun b hb hpb => huniq b (List.mem_cons_of_mem _ hb) hpb)

theorem getConsolePort_mem (s : Store) (pk : Nat) (cp : ConsolePort)
    (h : getConsolePort s pk = some cp) : (pk, cp) ∈ s.console_ports := by
  unfold getConsolePort at h
  match hf : s.console_ports.find? fun kv => kv.1 == pk with
  | none => rw [hf] at h; simp at h
  | some kv =>
    rw [hf] at h
    simp at h
    have h1 : kv.1 = pk := by simpa using List.find?_some hf
    have h2 := List.mem_of_find?_eq_some hf
    have hkv : kv = (pk, cp) := by
      obtain ⟨k, v⟩ := kv
      simp only at h1 h
      rw [h1, h]
    rw [← hkv]
    exact h2

theorem getPowerPort_mem (s : Store) (pk : Nat) (pp : PowerPort)
    (h : getPowerPort s pk = some pp) : (pk, pp) ∈ s.power_ports := by
  unfold getPowerPort at h
  match hf : s.power_ports.find? fun kv => kv.1 == pk with
  | none => rw [hf] at h; simp at h
  | some kv =>
    rw [hf] at h
    simp at h
    have h1 : kv.1 = pk := by simpa using List.find?_some hf
    have h2 := List.mem_of_find?_eq_some hf
    have hkv : kv = (pk, pp) := by
      obtain ⟨k, v⟩ := kv
      simp only at h1 h
      rw [h1, h]
    rw [← hkv]
    exact h2

theorem consoleport_disconnect_eq (s : Store) (pk : Nat) (cp : ConsolePort)
    (hc : getConsolePort s pk = some cp) :
    consoleport_disconnect s pk =
      (if cp.cs_port.isNone then .error .notConnected
      else .ok (saveConsolePort s pk
        { cp with cs_port := none, connection_status := none })) := by
  unfold consoleport_disconnect
  rw [hc]

theorem powerport_disconnect_eq (s : Store) (pk : Nat) (pp : PowerPort)
    (hp : getPowerPort s pk = some pp) :
    powerport_disconnect s pk =
      (if pp.power_outlet.isNone then .error .notConnected
      else .ok (savePowerPort s pk
        { pp with power_outlet := none, connection_status := none })) := by
  unfold powerport_disconnect
  rw [hp]

theorem consoleserverport_disconnect_eq (s : Store) (spk : Nat) (sp : ConsoleServerPort)
    (cpk : Nat) (cp : ConsolePort) (hs : getConsoleServerPort s spk = some sp)
    (hfind : (s.console_ports.find? fun kv => kv.2.cs_port == some spk) = some (cpk, cp)) :
    consoleserverport_disconnect s spk =
      .ok (saveConsolePort s cpk
        { cp with cs_port := none, connection_status := none }) := by
  unfold consoleserverport_disconnect
  rw [hs, hfind]

theorem poweroutlet_disconnect_eq (s : Store) (opk : Nat) (po : PowerOutlet)
    (ppk : Nat) (pp : PowerPort) (ho : getPowerOutlet s opk = some po)
    (hfind : (s.power_ports.find? fun kv => kv.2.power_outlet == some opk) = some (ppk, pp)) :
    poweroutlet_disconnect s opk =
      .ok (savePowerPort s ppk
        { pp with power_outlet := none, connection_status := none }) := by
  unfold poweroutlet_disconnect
  rw [ho, hfind]

theorem consoleport_connect_eq (s : Store) (pk : Nat) (cp : ConsolePort)
    (cs_pk : Nat) (st : Bool) (hc : getConsolePort s pk = some cp) :
    consoleport_connect s pk cs_pk st =
      .ok (saveConsolePort s pk
        { cp with cs_port := some cs_pk, connection_status := some st }) := by
  unfold consoleport_connect
  rw [hc]

theorem consoleserverport_connect_eq (s : Store) (spk : Nat) (sp : ConsoleServerPort)
    (port_pk : Nat) (cp : ConsolePort) (st : Bool)
    (hs : getConsoleServerPort s spk = some sp) (hc : getConsolePort s port_pk = some cp) :
    consoleserverport_connect s spk port_pk st =
      .ok (saveConsolePort s port_pk
        { cp with cs_port := some spk, connection_status := some st }) := by
  unfold consoleserverport_connect
  rw [hs, hc]

/-- C4: for every console or power port present in the store, disconnect
fails with the not-connected warning (and performs no mutation — no store
is produced) exactly when the partner reference (`cs_port` /
`power_outlet`) is unset; when it is set, disconnect saves the port once
with BOTH the reference and the connection status cleared, i.e. the
port's record becomes exactly that of a never-connected port with the same
device and name. -/
theorem C4_disconnect_exactly_when_reference_unset (s : Store)
    (cpk : Nat) (cp : ConsolePort) (hc : getConsolePort s cpk = some cp)
    (ppk : Nat) (pp : PowerPort) (hp : getPowerPort s ppk = some pp) :
    ((consoleport_disconnect s cpk = .error .notConnected) ↔ cp.cs_port = none) ∧
    (∀ r, cp.cs_port = some r → consoleport_disconnect s cpk =
      .ok (saveConsolePort s cpk
        { device := cp.device, name := cp.name,
          cs_port := none, connection_status := none })) ∧
    ((powerport_disconnect s ppk = .error .notConnected) ↔ pp.power_outlet = none) ∧
    (∀ r, pp.power_outlet = some r → powerport_disconnect s ppk =
      .ok (savePowerPort s ppk
        { device := pp.device, name := pp.name,
          power_outlet := none, connection_status := none })) := by
  rw [consoleport_disconnect_eq s cpk cp hc, powerport_disconnect_eq s ppk pp hp]
  refine ⟨?_, ?_, ?_, ?_⟩
  · match hcs : cp.cs_port with
    | none => simp
    | some r => simp
  · intro r hr
    rw [hr]
    rfl
  · match hpo : pp.power_outlet with
    | none => simp
    | some r => simp
  · intro r hr
    rw [hr]
    rfl

/-- Store used by the concrete witnesses of the connection claims: console
port 1 is connected to console server port 5, power port 2 to power
outlet 7. -/
def wStore : Store :=
  { console_ports :=
      [(1, { device := 10, name := "c1", cs_port := some 5, connection_status := some true })],
    console_server_ports := [(5, { device := 20, name := "s1" })],
    power_ports :=
      [(2, { device := 10, name := "p1", power_outlet := some 7, connection_status := some true })],
    power_outlets := [(7, { device := 21, name := "o1" })] }

/-- Witness for C4 on `wStore`. -/
theorem C4_disconnect_exactly_when_reference_unset_witness :
    consoleport_disconnect wStore 1 =
      .ok (saveConsolePort wStore 1
        { device := 10, name := "c1", cs_port := none, connection_status := none }) ∧
    powerport_disconnect wStore 2 =
      .ok (savePowerPort wStore 2
        { device := 10, name := "p1", power_outlet := none, connection_status := none }) := by
  have h := C4_disconnect_exactly_when_reference_unset wStore
    1 { device := 10, name := "c1", cs_port := some 5, connection_status := some true } rfl
    2 { device := 10, name := "p1", power_outlet := some 7, connection_status := some true } rfl
  exact ⟨h.2.1 5 rfl, h.2.2.2 7 rfl⟩

/-- C6: point-to-point connect writes the partner reference and status
unconditionally — here stated for a port that ALREADY holds a partner
reference: the reference is simply replaced (last write wins), and the
previous partner's own record (console server ports hold no connection
field at all) is not touched; only the originating console port row
changes.  Both origination directions behave this way
(`consoleport_connect` writes via the form, `consoleserverport_connect`
writes onto the chosen console port). -/
theorem C6_connect_unconditional_last_write_wins (s : Store)
    (cpk old_pk new_pk : Nat) (status : Bool) (cp : ConsolePort)
    (hc : getConsolePort s cpk = some cp) (hold : cp.cs_port = some old_pk)
    (spk : Nat) (sp : ConsoleServerPort) (hs : getConsoleServerPort s spk = some sp) :
    (consoleport_connect s cpk new_pk status =
        .ok (saveConsolePort s cpk
          { device := cp.device, name := cp.name,
            cs_port := some new_pk, connection_status := some status }) ∧
      (saveConsolePort s cpk
          { device := cp.device, name := cp.name,
            cs_port := some new_pk, connection_status := some status }).console_server_ports
        = s.console_server_ports) ∧
    (consoleserverport_connect s spk cpk status =
        .ok (saveConsolePort s cpk
          { device := cp.device, name := cp.name,
            cs_port := some spk, connection_status := some status }) ∧
      (saveConsolePort s cpk
          { device := cp.device, name := cp.name,
            cs_port := some spk, connection_status := some status }).console_server_ports
        = s.console_server_ports) := by
  rw [consoleport_connect_eq s cpk cp new_pk status hc,
    consoleserverport_connect_eq s spk sp cpk cp status hs hc]
  exact ⟨⟨rfl, rfl⟩, ⟨rfl, rfl⟩⟩

/-- Witness for C6 on `wStore`: console port 1 already points at server
port 5; reconnecting it (from either side) to server port 5 again, or the
port-side connect to a fresh partner 9, overwrites the reference. -/
theorem C6_connect_unconditional_last_write_wins_witness :
    consoleport_connect wStore 1 9 true =
      .ok (saveConsolePort wStore 1
        { device := 10, name := "c1", cs_port := some 9, connection_status := some true }) ∧
    consoleserverport_connect wStore 5 1 false =
      .ok (saveConsolePort wStore 1
        { device := 10, name := "c1", cs_port := some 5, connection_status := some false }) := by
  have h9 := C6_connect_unconditional_last_write_wins wStore 1 5 9 true
    { device := 10, name := "c1", cs_port := some 5, connection_status := some true } rfl rfl
    5 { device := 20, name := "s1" } rfl
  have h5 := C6_connect_unconditional_last_write_wins wStore 1 5 9 false
    { device := 10, name := "c1", cs_port := some 5, connection_status := some true } rfl rfl
    5 { device := 20, name := "s1" } rfl
  exact ⟨h9.1.1, h5.2.1⟩

/-- C10: for a connected pair, disconnecting from the server-port (or
outlet) side computes the referencing console (or power) port and performs
exactly the same mutation as disconnecting from the port side: both paths
null the port's reference and status in one save, the server-port/outlet
record itself is untouched, and the resulting stores are identical.  The
uniqueness hypothesis is the OneToOne constraint behind Django's
`connected_console` / `connected_port` reverse accessor. -/
theorem C10_disconnect_same_from_both_sides (s : Store)
    (cpk spk : Nat) (cp : ConsolePort) (sp : ConsoleServerPort)
    (hc : getConsolePort s cpk = some cp) (href : cp.cs_port = some spk)
    (hs : getConsoleServerPort s spk = some sp)
    (huniq : ∀ kv ∈ s.console_ports, kv.2.cs_port = some spk → kv = (cpk, cp))
    (ppk opk : Nat) (pp : PowerPort) (po : PowerOutlet)
    (hpc : getPowerPort s ppk = some pp) (hpref : pp.power_outlet = some opk)
    (hpo : getPowerOutlet s opk = some po)
    (hpuniq : ∀ kv ∈ s.power_ports, kv.2.power_outlet = some opk → kv = (ppk, pp)) :
    consoleserverport_disconnect s spk = consoleport_disconnect s cpk ∧
    consoleport_disconnect s cpk =
      .ok (saveConsolePort s cpk
        { device := cp.device, name := cp.name,
          cs_port := none, connection_status := none }) ∧
    (saveConsolePort s cpk
        { device := cp.device, name := cp.name,
          cs_port := none, connection_status := none }).console_server_ports
      = s.console_server_ports ∧
    poweroutlet_disconnect s opk = powerport_disconnect s ppk ∧
    powerport_disconnect s ppk =
      .ok (savePowerPort s ppk
        { device := pp.device, name := pp.name,
          power_outlet := none, connection_status := none }) ∧
    (savePowerPort s ppk
        { device := pp.device, name := pp.name,
          power_outlet := none, connection_status := none }).power_outlets
      = s.power_outlets := by
  have hfindc : (s.console_ports.find? fun kv => kv.2.cs_port == some spk)
      = some (cpk, cp) := by
    apply find?_unique _ _ _ (getConsolePort_mem s cpk cp hc) (by simp [href])
    intro b hb hpb
    exact huniq b hb (by simpa using hpb)
  have hfindp : (s.power_ports.find? fun kv => kv.2.power_outlet == some opk)
      = some (ppk, pp) := by
    apply find?_unique _ _ _ (getPowerPort_mem s ppk pp hpc) (by simp [hpref])
    intro b hb hpb
    exact hpuniq b hb (by simpa using hpb)
  have hcd : consoleport_disconnect s cpk =
      .ok (saveConsolePort s cpk
        { device := cp.device, name := cp.name,
          cs_port := none, connection_status := none }) := by
    rw [consoleport_disconnect_eq s cpk cp hc, href]
    rfl
  have hpd : powerport_disconnect s ppk =
      .ok (savePowerPort s ppk
        { device := pp.device, name := pp.name,
          power_outlet := none, connection_status := none }) := by
    rw [powerport_disconnect_eq s ppk pp hpc, hpref]
    rfl
  refine ⟨?_, hcd, rfl, ?_, hpd, rfl⟩
  · rw [consoleserverport_disconnect_eq s spk sp cpk cp hs hfindc, hcd]
  · rw [poweroutlet_disconnect_eq s opk po ppk pp hpo hfindp, hpd]

/-- Witness for C10 on `wStore`. -/
theorem C10_disconnect_same_from_both_sides_witness :
    consoleserverport_disconnect wStore 5 = consoleport_disconnect wStore 1 ∧
    poweroutlet_disconnect wStore 7 = powerport_disconnect wStore 2 := by
  have h := C10_disconnect_same_from_both_sides wStore
    1 5 { device := 10, name := "c1", cs_port := some 5, connection_status := some true }
    { device := 20, name := "s1" } rfl rfl rfl (by decide)
    2 7 { device := 10, name := "p1", power_outlet := some 7, connection_status := some true }
    { device := 21, name := "o1" } rfl rfl rfl (by decide)
  exact ⟨h.1, h.2.2.2.1⟩

/-! ## Topology Query (connection list views, views.py lines 1383-1407)

The querysets join the far-side port (`select_related`) and sort on the
joined columns; a row is embedded with the joined far-side display fields
inline.  `order_by(k1, k2)` is modelled as a sort by the lexicographic key
(far device name, far port name); Django compares text column values, here
character lists under the lexicographic order. -/

/-- The joined far-side port of a connection row: its device's name and its
own name (the two `order_by` columns). -/
structure FarRef where
  device_name : String
  name : String
deriving DecidableEq, Repr

/-- A `ConsolePort` row of `ConsoleConnectionsListView.queryset` with the
joined `cs_port__device__name` / `cs_port__name` columns inlined. -/
structure ConsoleConnRow where
  device_name : String
  name : String
  cs_port : Option FarRef
deriving DecidableEq, Repr

/-- A `PowerPort` row of `PowerConnectionsListView.queryset`. -/
structure PowerConnRow where
  device_name : String
  name : String
  power_outlet : Option FarRef
deriving DecidableEq, Repr

/-- An `InterfaceConnection` row of
`InterfaceConnectionsListView.queryset`: the two endpoints, each with
device name and interface name. -/
structure InterfaceConnRow where
  interface_a : FarRef
  interface_b : FarRef
deriving DecidableEq, Repr

/-- Sort key of the two `order_by` columns. -/
def farKey (f : FarRef) : Lex (List Char × List Char) :=
  toLex (f.device_name.data, f.name.data)

/-- Ordering of `order_by('cs_port__device__name', 'cs_port__name')`. -/
def consoleOrd (a b : ConsoleConnRow) : Prop :=
  farKey (a.cs_port.getD { device_name := "", name := "" })
    ≤ farKey (b.cs_port.getD { device_name := "", name := "" })

/-- Ordering of `order_by('power_outlet__device__name', 'power_outlet__name')`. -/
def powerOrd (a b : PowerConnRow) : Prop :=
  farKey (a.power_outlet.getD { device_name := "", name := "" })
    ≤ farKey (b.power_outlet.getD { device_name := "", name := "" })

/-- Ordering of `order_by('interface_a__device__name', 'interface_a__name')`. -/
def ifaceOrd (a b : InterfaceConnRow) : Prop :=
  farKey a.interface_a ≤ farKey b.interface_a

instance consoleOrd_dec : DecidableRel consoleOrd :=
  fun a b => inferInstanceAs (Decidable (_ ≤ _))

instance powerOrd_dec : DecidableRel powerOrd :=
  fun a b => inferInstanceAs (Decidable (_ ≤ _))

instance ifaceOrd_dec : DecidableRel ifaceOrd :=
  fun a b => inferInstanceAs (Decidable (_ ≤ _))

instance consoleOrd_total : IsTotal ConsoleConnRow consoleOrd :=
  ⟨fun _ _ => le_total _ _⟩

instance powerOrd_total : IsTotal PowerConnRow powerOrd :=
  ⟨fun _ _ => le_total _ _⟩

instance ifaceOrd_total : IsTotal InterfaceConnRow ifaceOrd :=
  ⟨fun _ _ => le_total _ _⟩

instance consoleOrd_trans : IsTrans ConsoleConnRow consoleOrd :=
  ⟨fun _ _ _ hab hbc => le_trans hab hbc⟩

instance powerOrd_trans : IsTrans PowerConnRow powerOrd :=
  ⟨fun _ _ _ hab hbc => le_trans hab hbc⟩

instance ifaceOrd_trans : IsTrans InterfaceConnRow ifaceOrd :=
  ⟨fun _ _ _ hab hbc => le_trans hab hbc⟩

/-- `ConsoleConnectionsListView.queryset` (views.py lines 1383-1389):
`ConsolePort.objects.filter(cs_port__isnull=False)
.order_by('cs_port__device__name', 'cs_port__name')`. -/
def console_connections_queryset (rows : List ConsoleConnRow) : List ConsoleConnRow :=
  (rows.filter fun r => r.cs_port.isSome).insertionSort consoleOrd

/-- `PowerConnectionsListView.queryset` (views.py lines 1392-1398). -/
def power_connections_queryset (rows : List PowerConnRow) : List PowerConnRow :=
  (rows.filter fun r => r.power_outlet.isSome).insertionSort powerOrd

/-- `InterfaceConnectionsListView.queryset` (views.py lines 1401-1407):
every `InterfaceConnection` row, ordered by endpoint A's device name then
interface name. -/
def interface_connections_queryset (rows : List InterfaceConnRow) : List InterfaceConnRow :=
  rows.insertionSort ifaceOrd

/-- C8: each connection listing contains exactly the live connections of
its kind (console/power: the ports whose partner reference is set, each
such port being one point-to-point connection; interface: every
`InterfaceConnection` row) and is sorted by the far-side device name then
far-side port name — where for the symmetric interface kind the "far side"
is endpoint A, the first-stored endpoint.  The output is a function of the
input rows, hence deterministic. -/
theorem C8_connection_lists_membership_and_order (crows : List ConsoleConnRow)
    (prows : List PowerConnRow) (irows : List InterfaceConnRow) :
    ((console_connections_queryset crows).Perm
        (crows.filter fun r => r.cs_port.isSome) ∧
      (console_connections_queryset crows).Sorted consoleOrd) ∧
    ((power_connections_queryset prows).Perm
        (prows.filter fun r => r.power_outlet.isSome) ∧
      (power_connections_queryset prows).Sorted powerOrd) ∧
    ((interface_connections_queryset irows).Perm irows ∧
      (interface_connections_queryset irows).Sorted ifaceOrd) :=
  ⟨⟨List.perm_insertionSort _ _, List.sorted_insertionSort _ _⟩,
    ⟨List.perm_insertionSort _ _, List.sorted_insertionSort _ _⟩,
    ⟨List.perm_insertionSort _ _, List.sorted_insertionSort _ _⟩⟩

/-! ## Related-Device Resolver (`device` view, views.py lines 399-411)

```python
if re.match('.+[0-9]+$', device.name):
    base_name = re.match('(.*?)[0-9]+$', device.name).group(1)
elif re.match('.+\d[a-z]+$', device.name.lower()):
    base_name = re.match('(.*\d+)[a-z]$', device.name.lower()).group(1)
else:
    base_name = None
```

Each regex condition is stated as a structural decomposition (`reMatch...`,
assuming names without newline characters, where `.` matches any
character) and compiled to an executable scanner (`match1b` etc.), with the
two proved equivalent.  The `elif` branch can crash: when the lowered name
ends in TWO or more letters after a digit, `.+\d[a-z]+$` matches but
`(.*\d+)[a-z]$` does not, and `.group(1)` on `None` raises
`AttributeError` — modelled as `.error ()`. -/

/-- `re.match('.+[0-9]+$', s)`: at least one character, then a nonempty
trailing digit run. -/
def reMatchTrailingDigits (s : List Char) : Prop :=
  ∃ a b, s = a ++ b ∧ a ≠ [] ∧ b ≠ [] ∧ ∀ c ∈ b, c.isDigit = true

/-- `re.match('.+\d[a-z]+$', s)`: at least one character, a digit, then a
nonempty trailing run of lowercase letters. -/
def reMatchDigitLetters (s : List Char) : Prop :=
  ∃ a d L, s = a ++ d :: L ∧ a ≠ [] ∧ d.isDigit = true ∧ L ≠ [] ∧ ∀ c ∈ L, c.isLower = true

/-- `re.match('(.*\d+)[a-z]$', s)`: a final lowercase letter whose
immediate predecessor is a digit (the group is everything before the final
letter). -/
def reMatchFinalLetterAfterDigit (s : List Char) : Prop :=
  ∃ u d l, s = u ++ [d, l] ∧ d.isDigit = true ∧ l.isLower = true

/-- Scanner for `.+[0-9]+$`. -/
def match1b (s : List Char) : Bool :=
  (match s.reverse with
    | c :: _ => c.isDigit
    | [] => false) && decide (2 ≤ s.length)

/-- Scanner for `.+\d[a-z]+$`: the maximal trailing lowercase run is
nonempty, the character before it is a digit, and at least one character
precedes that digit. -/
def match2b (s : List Char) : Bool :=
  match s.reverse.dropWhile (fun c => c.isLower) with
  | d :: t =>
    (!(s.reverse.takeWhile (fun c => c.isLower)).isEmpty) && d.isDigit && (!t.isEmpty)
  | [] => false

/-- Scanner for `(.*\d+)[a-z]$`: last character a lowercase letter,
second-to-last a digit. -/
def match3b (s : List Char) : Bool :=
  match s.reverse with
  | l :: d :: _ => l.isLower && d.isDigit
  | _ => false

/-- `re.match('(.*?)[0-9]+$', s).group(1)`: the lazy group is the name
with its maximal trailing digit run removed (see
`stripTrailingDigits_lazy_group` for the minimality of the lazy group). -/
def stripTrailingDigits (s : List Char) : List Char :=
  (s.reverse.dropWhile (fun c => c.isDigit)).reverse

/-- Base-name heuristic of the `device` view.  `.ok (some b)` is a computed
base name (the view then lists up to 10 other devices whose name starts
with it, case-insensitively, when `b` is nonempty), `.ok none` the "no
related devices" outcome, `.error ()` the `AttributeError` crash of the
`elif` branch. -/
def related_device_base (name : String) : Except Unit (Option String) :=
  if match1b name.data then .ok (some (stripTrailingDigits name.data).asString)
  else if match2b (name.data.map Char.toLower) then
    if match3b (name.data.map Char.toLower) then
      .ok (some ((name.data.map Char.toLower).dropLast).asString)
    else .error ()
  else .ok none

theorem isDigit_isLower_false (c : Char) (h : c.isDigit = true) : c.isLower = false := by
  simp [Char.isDigit, Char.isLower, UInt32.le_def, UInt32.lt_def,
    BitVec.le_def, BitVec.lt_def] at *
  omega

theorem takeWhile_append_stop (p : Char → Bool) (xs : List Char) (y : Char)
    (rest : List Char) (hxs : ∀ x ∈ xs, p x = true) (hy : p y = false) :
    (xs ++ y :: rest).takeWhile p = xs ∧ (xs ++ y :: rest).dropWhile p = y :: rest := by
  induction xs with
  | nil => simp [List.takeWhile_cons, List.dropWhile_cons, hy]
  | cons x t ih =>
    have hx := hxs x (by simp)
    obtain ⟨ih1, ih2⟩ := ih (fun z hz => hxs z (List.mem_cons_of_mem _ hz))
    rw [List.cons_append]
    constructor
    · rw [List.takeWhile_cons, if_pos hx, ih1]
    · rw [List.dropWhile_cons, if_pos hx, ih2]

theorem takeWhile_prefix_maximal (p : Char → Bool) (xs ys : List Char)
    (h : ∀ x ∈ xs, p x = true) : xs.length ≤ ((xs ++ ys).takeWhile p).length := by
  induction xs with
  | nil => simp
  | cons x t ih =>
    rw [List.cons_append, List.takeWhile_cons, if_pos (h x (by simp))]
    simpa using ih (fun z hz => h z (List.mem_cons_of_mem _ hz))

/-- The lazy group `(.*?)` takes the SHORTEST prefix whose complement is a
nonempty digit run: `stripTrailingDigits` is no longer than any valid
split, so it is that group. -/
theorem stripTrailingDigits_lazy_group (s a b : List Char)
    (hs : s = a ++ b) (hb : b ≠ []) (hbd : ∀ c ∈ b, c.isDigit = true) :
    (stripTrailingDigits s).length ≤ a.length := by
  have hmax : b.length ≤ (s.reverse.takeWhile (fun c => c.isDigit)).length := by
    have hrev : s.reverse = b.reverse ++ a.reverse := by rw [hs, List.reverse_append]
    rw [hrev]
    simpa using takeWhile_prefix_maximal _ b.reverse a.reverse
      (fun x hx => hbd x (List.mem_reverse.mp hx))
  have hsplit : (s.reverse.takeWhile (fun c => c.isDigit)).length
      + (s.reverse.dropWhile (fun c => c.isDigit)).length = s.length := by
    have hlen := congrArg List.length
      (List.takeWhile_append_dropWhile (fun c : Char => c.isDigit) s.reverse)
    rw [List.length_append, List.length_reverse] at hlen
    exact hlen
  have hstrip : (stripTrailingDigits s).length
      = (s.reverse.dropWhile (fun c => c.isDigit)).length := by
    simp [stripTrailingDigits]
  have hab : a.length + b.length = s.length := by rw [hs]; simp
  omega

theorem match1_iff (s : List Char) : reMatchTrailingDigits s ↔ match1b s = true := by
  constructor
  · rintro ⟨a, b, rfl, ha, hb, hd⟩
    match hbr : b.reverse with
    | [] => exact absurd (by simpa using congrArg List.reverse hbr) hb
    | c :: t =>
      have hcb : c ∈ b := List.mem_reverse.mp (by rw [hbr]; simp)
      have hrev : (a ++ b).reverse = c :: (t ++ a.reverse) := by
        rw [List.reverse_append, hbr]; rfl
      have hlen : 2 ≤ a.length + b.length := by
        have h1 : a.length ≠ 0 := by simpa using ha
        have h2 : b.length ≠ 0 := by simpa using hb
        omega
      simp [match1b, hrev, hd c hcb, hlen]
  · intro h
    match hsr : s.reverse with
    | [] => simp [match1b, hsr] at h
    | c :: t =>
      rw [match1b, hsr] at h
      simp only [Bool.and_eq_true, decide_eq_true_eq] at h
      obtain ⟨hc, hlen⟩ := h
      have hseq : s = t.reverse ++ [c] := by
        rw [← List.reverse_reverse s, hsr]
        simp
      refine ⟨t.reverse, [c], hseq, ?_, by simp, by simpa using hc⟩
      intro ht
      rw [hseq, ht] at hlen
      simp at hlen
  
theorem match2_iff (s : List Char) : reMatchDigitLetters s ↔ match2b s = true := by
  constructor
  · rintro ⟨a, d, L, rfl, ha, hd, hL, hLl⟩
    have hrev : (a ++ d :: L).reverse = L.reverse ++ d :: a.reverse := by
      simp
    have hlow : ∀ x ∈ L.reverse, x.isLower = true :=
      fun x hx => hLl x (List.mem_reverse.mp hx)
    obtain ⟨htk, hdr⟩ := takeWhile_append_stop (fun c => c.isLower) L.reverse d a.reverse
      hlow (isDigit_isLower_false d hd)
    rw [match2b, hrev, hdr, htk]
    simp [hd, List.isEmpty_iff, hL, ha]
  · intro h
    match hdr : s.reverse.dropWhile (fun c => c.isLower) with
    | [] => rw [match2b, hdr] at h; exact absurd h (by simp)
    | d :: t =>
      rw [match2b, hdr] at h
      simp only [Bool.and_eq_true, Bool.not_eq_eq_eq_not, Bool.not_true,
        List.isEmpty_eq_false, Bool.not_eq_true] at h
      obtain ⟨⟨hrl, hd⟩, ht⟩ := h
      have hsplit : s.reverse = s.reverse.takeWhile (fun c => c.isLower) ++ d :: t := by
        rw [← hdr, List.takeWhile_append_dropWhile]
      have hseq : s = t.reverse ++ d :: (s.reverse.takeWhile (fun c => c.isLower)).reverse := by
        have h0 : s.reverse.reverse
            = ((s.reverse.takeWhile (fun c => c.isLower)) ++ d :: t).reverse :=
          congrArg List.reverse hsplit
        rw [List.reverse_reverse] at h0
        calc s = ((s.reverse.takeWhile (fun c => c.isLower)) ++ d :: t).reverse := h0
          _ = t.reverse ++ d :: (s.reverse.takeWhile (fun c => c.isLower)).reverse := by simp
      refine ⟨t.reverse, d, (s.reverse.takeWhile (fun c => c.isLower)).reverse, hseq,
        ?_, hd, ?_, ?_⟩
      · simpa using ht
      · simpa using hrl
      · intro c hc
        exact List.mem_takeWhile_imp (List.mem_reverse.mp hc)

theorem match3_iff (s : List Char) : reMatchFinalLetterAfterDigit s ↔ match3b s = true := by
  constructor
  · rintro ⟨u, d, l, rfl, hd, hl⟩
    have hrev : (u ++ [d, l]).reverse = l :: d :: u.reverse := by simp
    rw [match3b, hrev]
    simp [hd, hl]
  · intro h
    match hsr : s.reverse with
    | [] => rw [match3b, hsr] at h; exact absurd h (by simp)
    | [l] => rw [match3b, hsr] at h; exact absurd h (by simp)
    | l :: d :: t =>
      rw [match3b, hsr] at h
      simp only [Bool.and_eq_true] at h
      refine ⟨t.reverse, d, l, ?_, h.2, h.1⟩
      rw [← List.reverse_reverse s, hsr]
      simp

/-- C9 counterexample: the name "3a".  Its lower-casing ends in a single
letter immediately preceded by one or more decimal digits, so the claim
requires base name "3"; but the code's `elif` regex `.+\d[a-z]+$` demands
a character BEFORE the digit, does not match "3a", and the view returns no
base name (and hence no related devices) instead. -/
theorem C9_counterexample :
    (Char.isDigit '3' = true ∧ Char.isLower 'a' = true ∧
      "3a".data.map Char.toLower = ['3', 'a']) ∧
    related_device_base "3a" = .ok none ∧
    related_device_base "3a" ≠ .ok (some "3") :=
  ⟨by decide, rfl, fun h => Option.noConfusion (Except.ok.inj h)⟩

/-- C9 (amended): the Related-Device Resolver computes the base name as
follows.  (1) If the name ends in one or more decimal digits AND has at
least one character before the trailing digit run (regex `.+[0-9]+$`), the
base name is the name with the maximal trailing digit run removed.
(2) Otherwise, if the LOWER-CASED name ends in a nonempty run of lowercase
letters immediately preceded by a digit, with at least one character
before that digit (regex `.+\d[a-z]+$`): when that run is a single letter
the base name is the lower-cased name with the letter removed (digits
retained); when the run has two or more letters the view raises an
`AttributeError` instead of returning.  (3) Otherwise there is no base
name and no related devices are returned.  In particular "core-switch1" →
"core-switch", "dist-switch3a" → "dist-switch3", "router" → no related
devices. -/
theorem C9_amended_base_name_heuristic (name : String) :
    (reMatchTrailingDigits name.data →
      related_device_base name = .ok (some (stripTrailingDigits name.data).asString)) ∧
    (¬ reMatchTrailingDigits name.data →
      reMatchDigitLetters (name.data.map Char.toLower) →
      reMatchFinalLetterAfterDigit (name.data.map Char.toLower) →
      related_device_base name
        = .ok (some ((name.data.map Char.toLower).dropLast).asString)) ∧
    (¬ reMatchTrailingDigits name.data →
      reMatchDigitLetters (name.data.map Char.toLower) →
      ¬ reMatchFinalLetterAfterDigit (name.data.map Char.toLower) →
      related_device_base name = .error ()) ∧
    (¬ reMatchTrailingDigits name.data →
      ¬ reMatchDigitLetters (name.data.map Char.toLower) →
      related_device_base name = .ok none) ∧
    related_device_base "core-switch1" = .ok (some "core-switch") ∧
    related_device_base "dist-switch3a" = .ok (some "dist-switch3") ∧
    related_device_base "router" = .ok none := by
  refine ⟨?_, ?_, ?_, ?_, rfl, rfl, rfl⟩
  · intro h1
    unfold related_device_base
    rw [if_pos ((match1_iff name.data).mp h1)]
  · intro h1 h2 h3
    unfold related_device_base
    rw [if_neg (fun hc => h1 ((match1_iff name.data).mpr hc)),
      if_pos ((match2_iff _).mp h2), if_pos ((match3_iff _).mp h3)]
  · intro h1 h2 h3
    unfold related_device_base
    rw [if_neg (fun hc => h1 ((match1_iff name.data).mpr hc)),
      if_pos ((match2_iff _).mp h2),
      if_neg (fun hc => h3 ((match3_iff _).mpr hc))]
  · intro h1 h2
    unfold related_device_base
    rw [if_neg (fun hc => h1 ((match1_iff name.data).mpr hc)),
      if_neg (fun hc => h2 ((match2_iff _).mpr hc))]

/-- Witness for C9: the trailing-digit branch at "core-switch1", the
single-letter branch at "dist-switch3a", the crash branch at "sw3ab", and
the no-match branch at "router". -/
theorem C9_amended_base_name_heuristic_witness :
    related_device_base "core-switch1" = .ok (some "core-switch") ∧
    related_device_base "dist-switch3a" = .ok (some "dist-switch3") ∧
    related_device_base "sw3ab" = .error () ∧
    related_device_base "router" = .ok none := by
  have h1 := (C9_amended_base_name_heuristic "core-switch1").1
    ⟨"core-switch".data, ['1'], rfl, by decide, by decide, by decide⟩
  have h2 := ((C9_amended_base_name_heuristic "dist-switch3a").2.1
    (fun hc => by
      have := (match1_iff _).mp hc
      exact absurd this (by decide))
    ⟨"dist-switch".data, '3', ['a'], rfl, by decide, by decide, by decide⟩
    ⟨"dist-switch".data, '3', 'a', rfl, by decide, by decide⟩)
  have h3 := ((C9_amended_base_name_heuristic "sw3ab").2.2.1
    (fun hc => by
      have := (match1_iff _).mp hc
      exact absurd this (by decide))
    ⟨"sw".data, '3', ['a', 'b'], rfl, by decide, by decide, by decide⟩
    (fun hc => by
      have := (match3_iff _).mp hc
      exact absurd this (by decide)))
  have h4 := ((C9_amended_base_name_heuristic "router").2.2.2.1
    (fun hc => by
      have := (match1_iff _).mp hc
      exact absurd this (by decide))
    (fun hc => by
      have := (match2_iff _).mp hc
      exact absurd this (by decide)))
  exact ⟨by rw [h1]; rfl, by rw [h2]; rfl, h3, h4⟩

end Netbox
